import Mathlib

/-!
Shallow embedding of `src/include/cares_service/detail/channel.hxx` from the
`cares_service` repository: a bridge between the c-ares resolver engine and a
boost::asio reactor.  The definitions below follow the source; parts of the
repository that are not under `src/` (the `resolve_mode.hxx` enumeration
helpers, the `error.hxx` category and the caller-supplied `Results` container)
are modelled from the specification and marked as such in their doc comments.
-/

namespace cares

namespace detail

/-- Address family of a sub-lookup or a resolved address (`AF_INET` /
`AF_INET6` in the source). -/
inductive Family where
  | af_inet
  | af_inet6
deriving DecidableEq, Repr

/-- Resolve-mode policy enumeration, from `resolve_mode.hxx` (declared by the
spec with exactly these six values). -/
inductive resolve_mode where
  | ipv4_only
  | ipv6_only
  | ipv4_first
  | ipv6_first
  | both
  | unspecific
deriving DecidableEq, Repr

open resolve_mode Family

/-- Modelled from the spec: `resolve_mode.hxx` is not under `src/`.  The spec
defines the resolve-mode policy as an enumeration with exactly the six values
`ipv4_only`, `ipv6_only`, `ipv4_first`, `ipv6_first`, `both`, `unspecific`;
a raw integral mode value is defined iff it encodes one of them. -/
def decode_resolve_mode : Nat → Option resolve_mode
  | 0 => some ipv4_only
  | 1 => some ipv6_only
  | 2 => some ipv4_first
  | 3 => some ipv6_first
  | 4 => some both
  | 5 => some unspecific
  | _ => none

/-- Modelled from the spec: validity test used by `Channel::SetResolveMode`
(`is_valid_resolve_mode` lives in `resolve_mode.hxx`, which is not under
`src/`); a mode is valid iff it is one of the six defined enumeration values. -/
def is_valid_resolve_mode (m : Nat) : Bool :=
  (decode_resolve_mode m).isSome

/-- Error codes carried in `boost::system::error_code`: `0` is the cleared
(success) state. -/
abbrev ErrCode := Nat

/-- Modelled from the spec: `error.hxx` is not under `src/`.  The "not
supported" error (`error::not_implemented`) assigned by `SetResolveMode` on an
invalid mode; any fixed nonzero code represents it. -/
def not_implemented : ErrCode := 95

/-- One resolved address tagged with its family: an element of the ordered
result sequence the aggregator accumulates. -/
structure Entry where
  family : Family
  addr : Nat
deriving DecidableEq, Repr

/-- The `struct hostent` a sub-lookup completion delivers: addresses of one
family. -/
structure Hostent where
  family : Family
  addrs : List Nat
deriving DecidableEq, Repr

/-- Entries contributed by one hostent-like record: its addresses tagged with
its family. -/
def entriesOf (f : Family) (addrs : List Nat) : List Entry :=
  addrs.map (fun a => ⟨f, a⟩)

/-- Modelled from the spec: the caller-supplied `Results` container (not under
`src/`) is an ordered sequence of resolved addresses, by family. -/
abbrev Results : Type := List Entry

/-- Results method `IsEmpty`: whether the accumulated sequence is empty. -/
def Results.IsEmpty (r : Results) : Bool :=
  List.isEmpty r

/-- Results method `Append(entries)`: the arriving record's addresses go after
the accumulated sequence. -/
def Results.Append (r : Results) (h : Hostent) : Results :=
  List.append r (entriesOf h.family h.addrs)

/-- Results method `Prepend(entries)`: the arriving record's addresses go
before the accumulated sequence. -/
def Results.Prepend (r : Results) (h : Hostent) : Results :=
  List.append (entriesOf h.family h.addrs) r

/-- Results method `LastFamily(family)`: the family of the last entry of the
accumulated sequence, if any (the source returns `false` on an empty
sequence). -/
def Results.LastFamily (r : Results) : Option Family :=
  Option.map Entry.family (List.getLast? r)

/-- Decrement of the shared `uint32_t` remaining-request counter (`--*req` in
`Channel::ResultHandler`), with 32-bit wrap-around. -/
def dec_u32 (n : Nat) : Nat :=
  (n + (2 ^ 32 - 1)) % 2 ^ 32

/-- Outcome of one `Channel::ResultHandler` invocation: the updated
accumulated sequence, the updated remaining sub-lookup count, and the callback
invocation posted to the caller's context, if any. -/
structure StepOut where
  result : Results
  req : Nat
  post : Option (ErrCode × Results)
deriving DecidableEq, Repr

/-- The `need_prepend` computation of `Channel::ResultHandler` (lines
276-278): prepend iff the mode is not `both` and the last accumulated entry's
family equals `AF_INET6` under `ipv4_first`, `AF_INET` otherwise.  The
short-circuit `&&` means `LastFamily` is consulted only when the mode is not
`both`. -/
def need_prepend_calc (mode : resolve_mode) (result : Results) : Bool :=
  decide (mode ≠ both) &&
    (match Results.LastFamily result with
     | some family =>
         decide (family = (if mode = ipv4_first then af_inet6 else af_inet))
     | none => false)

/-- `Channel::ResultHandler` (channel.hxx lines 253-312): one sub-lookup
completion updating the per-query shared state `(result, req)` and possibly
posting the caller's callback. -/
def ResultHandler (mode : resolve_mode) (ec : ErrCode) (entries : Hostent)
    (result : Results) (req : Nat) : StepOut :=
  let req := dec_u32 req
  match mode with
  | unspecific =>
      if ¬ (Results.IsEmpty result) then
        { result := result, req := req, post := none }
      else
        let result :=
          if ec = 0 ∧ Results.IsEmpty result then Results.Append result entries
          else result
        if ¬ (Results.IsEmpty result) ∨ req = 0 then
          { result := result, req := req, post := some (ec, result) }
        else
          { result := result, req := req, post := none }
  | ipv4_first | ipv6_first | both =>
      let need_prepend := need_prepend_calc mode result
      let result :=
        if ec = 0 ∧ need_prepend = false then Results.Append result entries
        else if ec = 0 ∧ need_prepend = true then Results.Prepend result entries
        else result
      if req = 0 then
        let ec := if ¬ (Results.IsEmpty result) then 0 else ec
        { result := result, req := req, post := some (ec, result) }
      else
        { result := result, req := req, post := none }
  | ipv4_only | ipv6_only =>
      let result :=
        if ec = 0 then Results.Append result entries else result
      { result := result, req := req, post := some (ec, result) }

/-- Initial value of the shared `remain_requests` counter set up by
`Channel::AsyncGetHostByName` (lines 170-174): starts at 1 and is incremented
once more unless the mode is `ipv4_only` or `ipv6_only`. -/
def remain_requests (mode : resolve_mode) : Nat :=
  let remain := 1
  if mode ≠ ipv6_only ∧ mode ≠ ipv4_only then remain + 1 else remain

/-- One sub-lookup completion as delivered to `ResultHandler`: the translated
status code and the hostent record. -/
abbrev Arrival := ErrCode × Hostent

/-- Accumulated run state of one query: the shared result/count pair plus the
list of callback invocations posted so far. -/
structure QueryRun where
  result : Results
  req : Nat
  posts : List (ErrCode × Results)
deriving DecidableEq, Repr

/-- Feed one sub-lookup completion through `ResultHandler`, collecting any
posted callback invocation. -/
def stepQuery (mode : resolve_mode) (st : QueryRun) (a : Arrival) : QueryRun :=
  let out := ResultHandler mode a.1 a.2 st.result st.req
  { result := out.result, req := out.req,
    posts := st.posts ++ (out.post).toList }

/-- State of a query right after `AsyncGetHostByName` set it up: empty result,
`remain_requests mode` sub-lookups pending, no callback posted. -/
def initQuery (mode : resolve_mode) : QueryRun :=
  { result := [], req := remain_requests mode, posts := [] }

/-- Run of one complete query: every sub-lookup completion fed through
`ResultHandler` in arrival order. -/
def runQuery (mode : resolve_mode) (arrivals : List Arrival) : QueryRun :=
  arrivals.foldl (stepQuery mode) (initQuery mode)

/-- Socket identifier (`ares_socket_t`), the key of the Channel's socket
map. -/
abbrev SocketId := Int

/-- The sentinel invalid socket value returned by `OpenSocket` on failure
(`SET_SOCKERRNO` then `return -1`). -/
def ARES_SOCKET_BAD : SocketId := -1

/-- The `Channel::Socket` handle as far as the socket map is concerned: the
tagged stream-vs-datagram variant (`is_tcp_`). -/
structure Socket where
  is_tcp_ : Bool
deriving DecidableEq, Repr

/-- The Channel's `sockets_` map (`std::map<ares_socket_t,
std::shared_ptr<Socket>>`), embedded as an association list with unique
keys. -/
abbrev SocketMap := List (SocketId × Socket)

/-- Map lookup (`sockets.find(fd)`). -/
def SocketMap.find (m : SocketMap) (fd : SocketId) : Option Socket :=
  match m with
  | [] => none
  | (k, s) :: rest => if k = fd then some s else SocketMap.find rest fd

/-- Map insertion (`sockets_.emplace(result, ptr)`): like `std::map::emplace`,
a no-op when the key is already present. -/
def SocketMap.emplace (m : SocketMap) (fd : SocketId) (s : Socket) : SocketMap :=
  match SocketMap.find m fd with
  | some _ => m
  | none => m ++ [(fd, s)]

/-- Map erasure of one key (`sockets.erase(itr)`); with unique keys this
removes exactly the found entry. -/
def SocketMap.eraseKey (m : SocketMap) (fd : SocketId) : SocketMap :=
  m.filter (fun p => decide (p.1 ≠ fd))

/-- Socket type argument of the bridge `OpenSocket` (`SOCK_STREAM` /
`SOCK_DGRAM`). -/
inductive SockType where
  | sock_stream
  | sock_dgram
deriving DecidableEq, Repr

/-- State of one `Channel` instance as the claims observe it: the in-flight
request counter (`int64_t request_count_`), whether the periodic timer is
running (an `async_wait` on `timer_` is pending), the stored resolve-mode
policy, the timer period (`timeout / 2`) and the socket map. -/
structure Channel where
  request_count_ : Int
  timer_running : Bool
  resolve_mode_ : resolve_mode
  timer_period_ms : Nat
  sockets_ : SocketMap
deriving DecidableEq, Repr

/-- The `Channel` constructor (channel.hxx lines 133-159), success path: the
counter starts at 0, no timer wait is pending, the stored mode is `both`, the
timer period is half the configured timeout, and no socket is open. -/
def Channel.construct (timeout_ms : Nat) : Channel :=
  { request_count_ := 0, timer_running := false, resolve_mode_ := both,
    timer_period_ms := timeout_ms / 2, sockets_ := [] }

/-- `Channel::GetResolveMode`. -/
def Channel.GetResolveMode (c : Channel) : resolve_mode :=
  c.resolve_mode_

/-- `Channel::SetResolveMode` (channel.hxx lines 212-219) over a raw mode
value: `ec.clear()`, then on an invalid mode assign `error::not_implemented`
and return without storing; otherwise store the mode. -/
def Channel.SetResolveMode (c : Channel) (mode : Nat) : Channel × ErrCode :=
  match decode_resolve_mode mode with
  | none => (c, not_implemented)
  | some m => ({ c with resolve_mode_ := m }, 0)

/-- Bridge `OpenSocket` (channel.hxx lines 409-449).  The reactor's socket
creation either fails with an error code (`os_result = none`: the function
returns the sentinel and leaves the map alone) or yields a fresh native
handle; on success the handle is registered in the Channel's socket map and
returned. -/
def OpenSocket (c : Channel) (ty : SockType) (os_result : Option SocketId) :
    Channel × SocketId :=
  match os_result with
  | none => (c, ARES_SOCKET_BAD)
  | some fd =>
      ({ c with sockets_ :=
          SocketMap.emplace c.sockets_ fd ⟨ty = SockType.sock_stream⟩ }, fd)

/-- Bridge `CloseSocket` (channel.hxx lines 451-458): find the Socket Handle,
close it and erase the map entry.  The source dereferences the find result
unconditionally, so closing an unknown identifier is undefined (modelled as
`none`). -/
def CloseSocket (c : Channel) (fd : SocketId) : Option Channel :=
  match SocketMap.find c.sockets_ fd with
  | some _ => some { c with sockets_ := SocketMap.eraseKey c.sockets_ fd }
  | none => none

/-- Operations that touch `request_count_` and the timer, applied in their
serialization order: the increment posted by `AsyncGetHostByNameInternal`,
the decrement posted by `HostCallback`, a `TimerCallback` firing, and the
direct `TimerStop` performed by `Cancel()` (channel.hxx lines 199-202) on the
caller's context (the per-lookup decrements that `ares_cancel` triggers are
the `dec` operations that follow it). -/
inductive StrandOp where
  | inc
  | dec
  | tick
  | cancel
deriving DecidableEq, Repr

/-- Effect of one operation on the Channel (channel.hxx lines 242-250,
325-338, 360-368 and 199-202): the increment starts the timer when the count
was zero; the decrement stops it when the count reaches zero; a timer firing
re-arms the wait only while `request_count_` is nonzero; `Cancel` stops the
timer unconditionally and leaves the count alone. -/
def applyOp (c : Channel) : StrandOp → Channel
  | StrandOp.inc =>
      let c := if c.request_count_ = 0 then { c with timer_running := true }
               else c
      { c with request_count_ := c.request_count_ + 1 }
  | StrandOp.dec =>
      let c := { c with request_count_ := c.request_count_ - 1 }
      if c.request_count_ = 0 then { c with timer_running := false } else c
  | StrandOp.tick =>
      if c.timer_running ∧ c.request_count_ ≠ 0 then c
      else { c with timer_running := false }
  | StrandOp.cancel => { c with timer_running := false }

/-- Run a sequence of strand operations from a given Channel state. -/
def runOps (c : Channel) (ops : List StrandOp) : Channel :=
  ops.foldl applyOp c

/-- Schedules obeying the asynchronous-completion discipline, tracked with
the number of sub-lookups issued but not yet completed: every decrement is
preceded by its sub-lookup's increment; ticks and cancels may occur anywhere.
This does NOT cover all code-generable orders: `ares_gethostbyname` is called
before the increment is posted (channel.hxx lines 241-250), so a lookup it
completes synchronously posts its decrement first — see
`sync_completion_posts`. -/
def ValidOps : Nat → List StrandOp → Bool
  | _, [] => true
  | pending, StrandOp.inc :: rest => ValidOps (pending + 1) rest
  | pending, StrandOp.dec :: rest => decide (0 < pending) && ValidOps (pending - 1) rest
  | pending, StrandOp.tick :: rest => ValidOps pending rest
  | pending, StrandOp.cancel :: rest => ValidOps pending rest

/-- Strand posting order generated by one sub-lookup whose completion
callback runs synchronously inside `ares_gethostbyname` (an IP-literal name,
`ARES_EBADNAME`, a hosts-file answer): `HostCallback` posts the decrement
during the call, before `AsyncGetHostByNameInternal` posts the increment
(channel.hxx lines 241-250 and 360-368). -/
def sync_completion_posts : List StrandOp := [StrandOp.dec, StrandOp.inc]

/-- Operation sequence for `Cancel()` invoked with one query in flight: the
increment has run, then `Cancel` stops the timer directly while the
`ares_cancel`-triggered decrement is still only posted (channel.hxx lines
199-202). -/
def cancel_inflight_posts : List StrandOp := [StrandOp.inc, StrandOp.cancel]

/-- Preferred family of a first-preference mode: `AF_INET` under `ipv4_first`,
`AF_INET6` under `ipv6_first`. -/
def preferred_family (mode : resolve_mode) : Family :=
  if mode = ipv4_first then af_inet else af_inet6

/-- Stated per-arrival prepend rule, following the spec's words (for
comparison with `need_prepend_calc`, which follows the source): prepend iff
the arriving result's family is not the preferred family AND the
last-appended entry's family matches the other (non-preferred) family. -/
def need_prepend_claimed (mode : resolve_mode) (arriving : Family)
    (result : Results) : Bool :=
  decide (mode ≠ both) && decide (arriving ≠ preferred_family mode) &&
    (match Results.LastFamily result with
     | some family =>
         decide (family = (if mode = ipv4_first then af_inet6 else af_inet))
     | none => false)

/-- Result sequence after one non-error arrival according to the stated rule
of `need_prepend_claimed` (for comparison with `ResultHandler`). -/
def claimed_merge (mode : resolve_mode) (ec : ErrCode) (entries : Hostent)
    (result : Results) : Results :=
  if ec = 0 then
    if need_prepend_claimed mode entries.family result then
      Results.Prepend result entries
    else Results.Append result entries
  else result

/-! Helper lemmas. -/

lemma dec_u32_one : dec_u32 1 = 0 := by decide

lemma dec_u32_two : dec_u32 2 = 1 := by decide

lemma getLast?_map_entry (f : Family) (l : List Nat) :
    (l.map (fun a => (⟨f, a⟩ : Entry))).getLast? =
      (l.getLast?).map (fun a => (⟨f, a⟩ : Entry)) := by
  induction l with
  | nil => rfl
  | cons a t ih =>
    cases t with
    | nil => rfl
    | cons b t2 =>
      simpa [List.getLast?_cons_cons] using ih

lemma LastFamily_entriesOf (f : Family) (l : List Nat) (h : l ≠ []) :
    Results.LastFamily (entriesOf f l) = some f := by
  obtain ⟨x, hx⟩ := Option.isSome_iff_exists.mp (List.getLast?_isSome.mpr h)
  simp [Results.LastFamily, entriesOf, getLast?_map_entry, hx]

lemma entriesOf_ne_nil (f : Family) (l : List Nat) (h : l ≠ []) :
    entriesOf f l ≠ [] := by
  cases l with
  | nil => exact absurd rfl h
  | cons a t => simp [entriesOf]

lemma ResultHandler_req (mode : resolve_mode) (ec : ErrCode) (h : Hostent)
    (result : Results) (req : Nat) :
    (ResultHandler mode ec h result req).req = dec_u32 req := by
  cases mode <;> dsimp only [ResultHandler] <;> (repeat' split) <;> rfl

lemma stepQuery_req (mode : resolve_mode) (st : QueryRun) (a : Arrival) :
    (stepQuery mode st a).req = dec_u32 st.req :=
  ResultHandler_req mode a.1 a.2 st.result st.req

lemma runOps_cons (c : Channel) (o : StrandOp) (rest : List StrandOp) :
    runOps c (o :: rest) = runOps (applyOp c o) rest := rfl

lemma applyOp_inc_count (c : Channel) :
    (applyOp c StrandOp.inc).request_count_ = c.request_count_ + 1 := by
  dsimp only [applyOp]
  split <;> rfl

lemma applyOp_dec_count (c : Channel) :
    (applyOp c StrandOp.dec).request_count_ = c.request_count_ - 1 := by
  dsimp only [applyOp]
  split <;> rfl

lemma applyOp_tick_count (c : Channel) :
    (applyOp c StrandOp.tick).request_count_ = c.request_count_ := by
  dsimp only [applyOp]
  split <;> rfl

lemma applyOp_cancel_count (c : Channel) :
    (applyOp c StrandOp.cancel).request_count_ = c.request_count_ := rfl

lemma applyOp_timer_imp (c : Channel) (o : StrandOp)
    (h : c.timer_running = true → 0 < c.request_count_) :
    (applyOp c o).timer_running = true → 0 < (applyOp c o).request_count_ := by
  cases o with
  | inc =>
    rw [applyOp_inc_count]
    intro ht
    by_cases h0 : c.request_count_ = 0
    · omega
    · have : (applyOp c StrandOp.inc).timer_running = c.timer_running := by
        dsimp only [applyOp]
        rw [if_neg h0]
      rw [this] at ht
      have := h ht
      omega
  | dec =>
    dsimp only [applyOp]
    split
    case isTrue h0 => intro ht; exact absurd ht (by simp)
    case isFalse h0 =>
      intro ht
      have hc := h ht
      dsimp only at h0 ⊢
      omega
  | tick =>
    dsimp only [applyOp]
    split
    case isTrue h0 =>
      intro _
      have := h h0.1
      omega
    case isFalse h0 => intro ht; exact absurd ht (by simp)
  | cancel => intro ht; exact absurd ht (by simp [applyOp])

lemma runOps_timer_imp (ops : List StrandOp) :
    ∀ c : Channel, (c.timer_running = true → 0 < c.request_count_) →
      ((runOps c ops).timer_running = true →
        0 < (runOps c ops).request_count_) := by
  induction ops with
  | nil => intro c h; exact h
  | cons o rest ih =>
    intro c h
    exact ih (applyOp c o) (applyOp_timer_imp c o h)

lemma applyOp_timer_iff (c : Channel) (o : StrandOp)
    (ho : o ≠ StrandOp.cancel)
    (h : c.timer_running = decide (0 < c.request_count_)) :
    (applyOp c o).timer_running =
      decide (0 < (applyOp c o).request_count_) := by
  cases o with
  | inc =>
    rw [applyOp_inc_count]
    by_cases h0 : c.request_count_ = 0
    · have : (applyOp c StrandOp.inc).timer_running = true := by
        dsimp only [applyOp]
        rw [if_pos h0]
      rw [this, h0]
      simp
    · have : (applyOp c StrandOp.inc).timer_running = c.timer_running := by
        dsimp only [applyOp]
        rw [if_neg h0]
      rw [this, h]
      rcases lt_trichotomy c.request_count_ 0 with hlt | heq | hgt
      · have e1 : ¬ 0 < c.request_count_ := by omega
        have e2 : ¬ 0 < c.request_count_ + 1 := by omega
        simp [e1, e2]
      · exact absurd heq h0
      · have e2 : 0 < c.request_count_ + 1 := by omega
        simp [hgt, e2]
  | dec =>
    dsimp only [applyOp]
    split
    case isTrue h0 =>
      dsimp only at h0 ⊢
      rw [h0]
      simp
    case isFalse h0 =>
      dsimp only at h0 ⊢
      rw [h]
      rcases lt_trichotomy c.request_count_ 1 with hlt | heq | hgt
      · have e1 : ¬ 0 < c.request_count_ := by omega
        have e2 : ¬ 0 < c.request_count_ - 1 := by omega
        simp [e1, e2]
      · exact absurd (by omega : c.request_count_ - 1 = 0) h0
      · have e1 : 0 < c.request_count_ := by omega
        have e2 : 0 < c.request_count_ - 1 := by omega
        simp [e1, e2]
  | tick =>
    dsimp only [applyOp]
    split
    case isTrue h0 => exact h
    case isFalse h0 =>
      dsimp only
      rw [not_and_or] at h0
      rcases h0 with h0 | h0
      · have hf : c.timer_running = false := by
          cases hb : c.timer_running
          · rfl
          · exact absurd hb h0
        rw [hf] at h
        exact h.symm ▸ h
      · have hz : c.request_count_ = 0 := by
          by_contra hc
          exact h0 hc
        rw [hz]
        simp
  | cancel => exact absurd rfl ho

lemma runOps_timer_iff (ops : List StrandOp) :
    ∀ c : Channel, StrandOp.cancel ∉ ops →
      c.timer_running = decide (0 < c.request_count_) →
      (runOps c ops).timer_running =
        decide (0 < (runOps c ops).request_count_) := by
  induction ops with
  | nil => intro c _ h; exact h
  | cons o rest ih =>
    intro c hnc h
    have ho : o ≠ StrandOp.cancel := fun he => hnc (he ▸ List.mem_cons_self o rest)
    have hrest : StrandOp.cancel ∉ rest := fun hm => hnc (List.mem_cons_of_mem o hm)
    exact ih (applyOp c o) hrest (applyOp_timer_iff c o ho h)

lemma runOps_count_nat (ops : List StrandOp) :
    ∀ (p : Nat) (c : Channel), ValidOps p ops = true →
      c.request_count_ = (p : Int) →
      ∃ q : Nat, (runOps c ops).request_count_ = (q : Int) := by
  induction ops with
  | nil => intro p c _ hc; exact ⟨p, hc⟩
  | cons o rest ih =>
    intro p c hv hc
    cases o with
    | inc =>
      refine ih (p + 1) (applyOp c StrandOp.inc) hv ?_
      rw [applyOp_inc_count, hc]
      push_cast
      ring
    | dec =>
      have hv' : (decide (0 < p) && ValidOps (p - 1) rest) = true := hv
      rw [Bool.and_eq_true] at hv'
      obtain ⟨hp, hrest⟩ := hv'
      have hppos : 0 < p := of_decide_eq_true hp
      refine ih (p - 1) (applyOp c StrandOp.dec) hrest ?_
      rw [applyOp_dec_count, hc]
      push_cast [Nat.cast_sub hppos]
      ring
    | tick =>
      have hv' : ValidOps p rest = true := hv
      refine ih p (applyOp c StrandOp.tick) hv' ?_
      rw [applyOp_tick_count, hc]
    | cancel =>
      have hv' : ValidOps p rest = true := hv
      refine ih p (applyOp c StrandOp.cancel) hv' ?_
      rw [applyOp_cancel_count, hc]

lemma find_append_self (m : SocketMap) (fd : SocketId) (s : Socket)
    (h : SocketMap.find m fd = none) :
    SocketMap.find (m ++ [(fd, s)]) fd = some s := by
  induction m with
  | nil => simp [SocketMap.find]
  | cons p rest ih =>
    obtain ⟨k, sv⟩ := p
    by_cases hk : k = fd
    · rw [SocketMap.find, if_pos hk] at h
      exact absurd h (by simp)
    · rw [SocketMap.find, if_neg hk] at h
      rw [List.cons_append, SocketMap.find, if_neg hk]
      exact ih h

lemma eraseKey_append_self (m : SocketMap) (fd : SocketId) (s : Socket)
    (h : SocketMap.find m fd = none) :
    SocketMap.eraseKey (m ++ [(fd, s)]) fd = m := by
  induction m with
  | nil => simp [SocketMap.eraseKey]
  | cons p rest ih =>
    obtain ⟨k, sv⟩ := p
    by_cases hk : k = fd
    · rw [SocketMap.find, if_pos hk] at h
      exact absurd h (by simp)
    · rw [SocketMap.find, if_neg hk] at h
      have htail := ih h
      simp only [SocketMap.eraseKey] at htail ⊢
      rw [List.cons_append, List.filter_cons, if_pos (by simp [hk]), htail]

lemma RH_only (mode : resolve_mode) (ec : ErrCode) (h : Hostent)
    (result : Results) (req : Nat)
    (hm : mode = ipv4_only ∨ mode = ipv6_only) :
    ResultHandler mode ec h result req =
      { result := if ec = 0 then Results.Append result h else result,
        req := dec_u32 req,
        post := some (ec, if ec = 0 then Results.Append result h else result) } := by
  rcases hm with rfl | rfl <;> rfl

lemma RH_merge_result (mode : resolve_mode) (ec : ErrCode) (h : Hostent)
    (result : Results) (req : Nat)
    (hm : mode = ipv4_first ∨ mode = ipv6_first ∨ mode = both) :
    (ResultHandler mode ec h result req).result =
      if ec = 0 then
        (if need_prepend_calc mode result then Results.Prepend result h
         else Results.Append result h)
      else result := by
  rcases hm with rfl | rfl | rfl <;> dsimp only [ResultHandler] <;>
    (repeat' split) <;> simp_all

lemma RH_merge_post (mode : resolve_mode) (ec : ErrCode) (h : Hostent)
    (result : Results) (req : Nat)
    (hm : mode = ipv4_first ∨ mode = ipv6_first ∨ mode = both) :
    (ResultHandler mode ec h result req).post =
      (if dec_u32 req = 0 then
        some ((if ¬ Results.IsEmpty (ResultHandler mode ec h result req).result
               then 0 else ec),
              (ResultHandler mode ec h result req).result)
       else none) := by
  rcases hm with rfl | rfl | rfl <;> dsimp only [ResultHandler] <;>
    (repeat' split) <;> simp_all

lemma RH_unspec_nonempty (ec : ErrCode) (h : Hostent) (result : Results)
    (req : Nat) (hne : Results.IsEmpty result = false) :
    ResultHandler unspecific ec h result req =
      { result := result, req := dec_u32 req, post := none } := by
  dsimp only [ResultHandler]
  rw [if_pos (by simp [hne])]

lemma RH_unspec_empty (ec : ErrCode) (h : Hostent) (result : Results)
    (req : Nat) (he : Results.IsEmpty result = true) :
    ResultHandler unspecific ec h result req =
      (if ¬ Results.IsEmpty (if ec = 0 then Results.Append result h else result)
          ∨ dec_u32 req = 0 then
         { result := if ec = 0 then Results.Append result h else result,
           req := dec_u32 req,
           post := some (ec, if ec = 0 then Results.Append result h else result) }
       else
         { result := if ec = 0 then Results.Append result h else result,
           req := dec_u32 req, post := none }) := by
  dsimp only [ResultHandler]
  rw [if_neg (by simp [he])]
  simp only [he, and_true]

lemma post_iff_aux (rr : Results) (req : Nat) (e : ErrCode) :
    ((if ¬ Results.IsEmpty rr ∨ dec_u32 req = 0 then
        ({ result := rr, req := dec_u32 req, post := some (e, rr) } : StepOut)
      else { result := rr, req := dec_u32 req, post := none }).post ≠ none ↔
     (Results.IsEmpty (if ¬ Results.IsEmpty rr ∨ dec_u32 req = 0 then
        ({ result := rr, req := dec_u32 req, post := some (e, rr) } : StepOut)
      else { result := rr, req := dec_u32 req, post := none }).result = false ∨
      dec_u32 req = 0)) := by
  split
  case isTrue hc =>
    refine ⟨fun _ => ?_, fun _ => by simp⟩
    rcases hc with hc | hc
    · exact Or.inl (by simpa using hc)
    · exact Or.inr hc
  case isFalse hc =>
    push_neg at hc
    obtain ⟨h1, h2⟩ := hc
    refine ⟨fun hne => absurd rfl hne, fun hor => ?_⟩
    rcases hor with hor | hor
    · simp only [Results.IsEmpty] at h1 hor
      rw [h1] at hor
      exact Bool.noConfusion hor
    · exact absurd hor h2

lemma need_prepend_calc_eq (mode : resolve_mode) (result : Results)
    (hm : mode = ipv4_first ∨ mode = ipv6_first) :
    need_prepend_calc mode result =
      decide (Results.LastFamily result =
        some (if mode = ipv4_first then af_inet6 else af_inet)) := by
  rcases hm with rfl | rfl <;>
    (unfold need_prepend_calc
     cases hL : Results.LastFamily result with
     | none => simp
     | some f => simp)

lemma need_prepend_calc_nil (mode : resolve_mode) :
    need_prepend_calc mode [] = false := by
  unfold need_prepend_calc
  simp [Results.LastFamily]

lemma stepQuery_eq (mode : resolve_mode) (st : QueryRun) (a : Arrival) :
    stepQuery mode st a =
      { result := (ResultHandler mode a.1 a.2 st.result st.req).result,
        req := (ResultHandler mode a.1 a.2 st.result st.req).req,
        posts := st.posts ++
          ((ResultHandler mode a.1 a.2 st.result st.req).post).toList } := rfl

lemma runQuery_only (mode : resolve_mode)
    (hm : mode = ipv4_only ∨ mode = ipv6_only) (a : Arrival) :
    (runQuery mode [a]).posts.length = 1 ∧ (runQuery mode [a]).req = 0 := by
  have hr : remain_requests mode = 1 := by rcases hm with rfl | rfl <;> rfl
  have h1 : runQuery mode [a] = stepQuery mode (initQuery mode) a := rfl
  rw [h1, stepQuery_eq, RH_only mode a.1 a.2 _ _ hm]
  constructor
  · simp [initQuery]
  · show dec_u32 (initQuery mode).req = 0
    simp [initQuery, hr, dec_u32_one]

lemma runQuery_merge (mode : resolve_mode)
    (hm : mode = ipv4_first ∨ mode = ipv6_first ∨ mode = both)
    (a b : Arrival) :
    (runQuery mode [a, b]).posts.length = 1 ∧ (runQuery mode [a, b]).req = 0 := by
  have hr : remain_requests mode = 2 := by rcases hm with rfl | rfl | rfl <;> rfl
  have hinitreq : (initQuery mode).req = 2 := by simp [initQuery, hr]
  have hreq1 : (stepQuery mode (initQuery mode) a).req = 1 := by
    rw [stepQuery_req, hinitreq, dec_u32_two]
  have hpost1 : (ResultHandler mode a.1 a.2 (initQuery mode).result
      (initQuery mode).req).post = none := by
    rw [RH_merge_post _ _ _ _ _ hm, hinitreq, dec_u32_two]
    simp
  have hposts1 : (stepQuery mode (initQuery mode) a).posts = [] := by
    rw [stepQuery_eq, hpost1]
    simp [initQuery]
  have h2 : runQuery mode [a, b] =
      stepQuery mode (stepQuery mode (initQuery mode) a) b := rfl
  have hpost2 := RH_merge_post mode b.1 b.2
    (stepQuery mode (initQuery mode) a).result
    (stepQuery mode (initQuery mode) a).req hm
  rw [hreq1, dec_u32_one] at hpost2
  rw [if_pos rfl] at hpost2
  constructor
  · rw [h2, stepQuery_eq, hreq1, hpost2, hposts1]
    rfl
  · rw [h2, stepQuery_req, hreq1, dec_u32_one]

lemma runQuery_unspec (a b : Arrival) :
    (runQuery unspecific [a, b]).posts.length = 1 ∧
      (runQuery unspecific [a, b]).req = 0 := by
  have hinit : initQuery unspecific = { result := [], req := 2, posts := [] } := rfl
  have h2 : runQuery unspecific [a, b] =
      stepQuery unspecific (stepQuery unspecific (initQuery unspecific) a) b := rfl
  have hstep1 := RH_unspec_empty a.1 a.2 [] 2 rfl
  rw [dec_u32_two] at hstep1
  by_cases hE : Results.IsEmpty
      (if a.1 = 0 then Results.Append [] a.2 else []) = true
  · have h1 : ResultHandler unspecific a.1 a.2 [] 2 =
        { result := (if a.1 = 0 then Results.Append [] a.2 else []),
          req := 1, post := none } := by
      rw [hstep1, if_neg]
      simp [hE]
    have hst1 : stepQuery unspecific (initQuery unspecific) a =
        { result := (if a.1 = 0 then Results.Append [] a.2 else []),
          req := 1, posts := [] } := by
      rw [stepQuery_eq, hinit]
      dsimp only
      rw [h1]
      rfl
    have hstep2 := RH_unspec_empty b.1 b.2
      (if a.1 = 0 then Results.Append [] a.2 else []) 1 hE
    rw [dec_u32_one] at hstep2
    rw [if_pos (Or.inr rfl)] at hstep2
    constructor
    · rw [h2, hst1, stepQuery_eq]
      dsimp only
      rw [hstep2]
      rfl
    · rw [h2, hst1, stepQuery_eq]
      dsimp only
      rw [hstep2]
  · have hEf : Results.IsEmpty
        (if a.1 = 0 then Results.Append [] a.2 else []) = false :=
      Bool.eq_false_iff.mpr hE
    have h1 : ResultHandler unspecific a.1 a.2 [] 2 =
        { result := (if a.1 = 0 then Results.Append [] a.2 else []),
          req := 1,
          post := some (a.1, (if a.1 = 0 then Results.Append [] a.2 else [])) } := by
      rw [hstep1, if_pos]
      left
      simp [hEf]
    have hst1 : stepQuery unspecific (initQuery unspecific) a =
        { result := (if a.1 = 0 then Results.Append [] a.2 else []),
          req := 1,
          posts := [(a.1, (if a.1 = 0 then Results.Append [] a.2 else []))] } := by
      rw [stepQuery_eq, hinit]
      dsimp only
      rw [h1]
      rfl
    have hstep2 := RH_unspec_nonempty b.1 b.2
      (if a.1 = 0 then Results.Append [] a.2 else []) 1 hEf
    rw [dec_u32_one] at hstep2
    constructor
    · rw [h2, hst1, stepQuery_eq]
      dsimp only
      rw [hstep2]
      rfl
    · rw [h2, hst1, stepQuery_eq]
      dsimp only
      rw [hstep2]

lemma runQuery_take_two (mode : resolve_mode)
    (hr : remain_requests mode = 2) (a b : Arrival)
    (hfin : (runQuery mode [a, b]).req = 0) :
    ∀ k, k ≤ ([a, b] : List Arrival).length →
      (runQuery mode (([a, b] : List Arrival).take k)).req =
        remain_requests mode - k := by
  intro k hk
  have hk2 : k ≤ 2 := by simpa using hk
  clear hk
  interval_cases k
  · simp [runQuery, initQuery, hr]
  · show (stepQuery mode (initQuery mode) a).req = remain_requests mode - 1
    rw [stepQuery_req]
    simp [initQuery, hr, dec_u32_two]
  · rw [hr]
    exact hfin

lemma runQuery_merge_trace (mode : resolve_mode)
    (hm : mode = ipv4_first ∨ mode = ipv6_first ∨ mode = both)
    (a b : Arrival) (ha : a.1 = 0) (hb : b.1 = 0) :
    (runQuery mode [a, b]).result =
      (if need_prepend_calc mode (entriesOf a.2.family a.2.addrs) = true then
         Results.Prepend (entriesOf a.2.family a.2.addrs) b.2
       else Results.Append (entriesOf a.2.family a.2.addrs) b.2) ∧
    (runQuery mode [a, b]).posts =
      [(0, (if need_prepend_calc mode (entriesOf a.2.family a.2.addrs) = true then
         Results.Prepend (entriesOf a.2.family a.2.addrs) b.2
       else Results.Append (entriesOf a.2.family a.2.addrs) b.2))] := by
  have hr : remain_requests mode = 2 := by rcases hm with rfl | rfl | rfl <;> rfl
  have hinitreq : (initQuery mode).req = 2 := by simp [initQuery, hr]
  have hres1 : (ResultHandler mode a.1 a.2 (initQuery mode).result
      (initQuery mode).req).result = entriesOf a.2.family a.2.addrs := by
    rw [RH_merge_result _ _ _ _ _ hm, ha]
    simp [initQuery, need_prepend_calc_nil, Results.Append]
  have hreq1 : (ResultHandler mode a.1 a.2 (initQuery mode).result
      (initQuery mode).req).req = 1 := by
    rw [ResultHandler_req, hinitreq, dec_u32_two]
  have hpost1 : (ResultHandler mode a.1 a.2 (initQuery mode).result
      (initQuery mode).req).post = none := by
    rw [RH_merge_post _ _ _ _ _ hm, hinitreq, dec_u32_two]
    simp
  have hst1 : stepQuery mode (initQuery mode) a =
      { result := entriesOf a.2.family a.2.addrs, req := 1, posts := [] } := by
    rw [stepQuery_eq, hres1, hreq1, hpost1]
    simp [initQuery]
  have hres2 : (ResultHandler mode b.1 b.2 (entriesOf a.2.family a.2.addrs)
      1).result =
      (if need_prepend_calc mode (entriesOf a.2.family a.2.addrs) = true then
         Results.Prepend (entriesOf a.2.family a.2.addrs) b.2
       else Results.Append (entriesOf a.2.family a.2.addrs) b.2) := by
    rw [RH_merge_result _ _ _ _ _ hm, hb]
    simp only [reduceIte]
  have hpost2 : (ResultHandler mode b.1 b.2 (entriesOf a.2.family a.2.addrs)
      1).post =
      some (0, (ResultHandler mode b.1 b.2 (entriesOf a.2.family a.2.addrs)
        1).result) := by
    rw [RH_merge_post _ _ _ _ _ hm, dec_u32_one, if_pos rfl, hb]
    simp
  have h2 : runQuery mode [a, b] =
      stepQuery mode (stepQuery mode (initQuery mode) a) b := rfl
  constructor
  · rw [h2, hst1, stepQuery_eq]
    dsimp only
    exact hres2
  · rw [h2, hst1, stepQuery_eq]
    dsimp only
    rw [hpost2, hres2]
    rfl

/-! Claim theorems. -/

/-- C6 counterexample: after `Cancel()` with one query still in flight the
timer is stopped while `request_count_` is 1, refuting the if-and-only-if in
that reachable state. -/
theorem timer_iff_counterexample :
    (runOps (Channel.construct 3000) cancel_inflight_posts).request_count_ = 1 ∧
    (runOps (Channel.construct 3000) cancel_inflight_posts).timer_running
      = false ∧
    ¬ ((runOps (Channel.construct 3000)
          cancel_inflight_posts).timer_running = true ↔
        0 < (runOps (Channel.construct 3000)
          cancel_inflight_posts).request_count_) := by
  decide

/-- C6 amended: in every reachable state (any sequence of the posted
increments, posted decrements, timer firings and `Cancel` timer stops, in any
order — synchronous-completion orders included), a running timer implies a
positive in-flight count; and in every state reachable without `Cancel()`,
the timer runs if and only if the count is positive, so once the count
returns to zero the timer is stopped.  `Cancel()` itself stops the timer
directly while the count is still positive until its posted decrements
drain. -/
theorem timer_runs_iff_requests_in_flight (timeout : Nat)
    (ops : List StrandOp) :
    ((runOps (Channel.construct timeout) ops).timer_running = true →
       0 < (runOps (Channel.construct timeout) ops).request_count_) ∧
    (StrandOp.cancel ∉ ops →
      (((runOps (Channel.construct timeout) ops).timer_running = true ↔
         0 < (runOps (Channel.construct timeout) ops).request_count_) ∧
       ((runOps (Channel.construct timeout) ops).request_count_ = 0 →
         (runOps (Channel.construct timeout) ops).timer_running = false))) := by
  constructor
  · exact runOps_timer_imp ops (Channel.construct timeout) (by intro h; simp [Channel.construct] at h)
  · intro hnc
    have hiff := runOps_timer_iff ops (Channel.construct timeout) hnc rfl
    constructor
    · rw [hiff]
      constructor
      · intro hd
        exact of_decide_eq_true hd
      · intro hpos
        exact decide_eq_true hpos
    · intro h0
      rw [hiff, h0]
      rfl

/-- Witness for the amended C6: a cancel-free schedule in which a sub-lookup
completed synchronously (decrement posted first) still satisfies the
if-and-only-if. -/
theorem timer_runs_iff_requests_in_flight_witness :
    (StrandOp.cancel ∉ [StrandOp.dec, StrandOp.inc, StrandOp.inc]) ∧
    ((runOps (Channel.construct 3000)
        [StrandOp.dec, StrandOp.inc, StrandOp.inc]).timer_running = true ↔
      0 < (runOps (Channel.construct 3000)
        [StrandOp.dec, StrandOp.inc, StrandOp.inc]).request_count_) :=
  ⟨by decide,
   ((timer_runs_iff_requests_in_flight 3000
     [StrandOp.dec, StrandOp.inc, StrandOp.inc]).2 (by decide)).1⟩

/-- C7: `SetResolveMode` with an invalid (undefined) mode returns the
"not supported" error and leaves the stored mode unchanged, so a subsequent
`GetResolveMode` still reports the prior mode; with a valid mode it succeeds
with a cleared error code and stores that mode. -/
theorem SetResolveMode_validity (c : Channel) (m : Nat) :
    (is_valid_resolve_mode m = false →
       Channel.SetResolveMode c m = (c, not_implemented) ∧
       not_implemented ≠ 0 ∧
       Channel.GetResolveMode (Channel.SetResolveMode c m).1 =
         Channel.GetResolveMode c) ∧
    (is_valid_resolve_mode m = true →
       (Channel.SetResolveMode c m).2 = 0 ∧
       decode_resolve_mode m =
         some (Channel.GetResolveMode (Channel.SetResolveMode c m).1)) := by
  constructor
  · intro hinv
    have hd : decode_resolve_mode m = none := by
      unfold is_valid_resolve_mode at hinv
      exact Option.not_isSome_iff_eq_none.mp (by simp [hinv])
    simp [Channel.SetResolveMode, hd, Channel.GetResolveMode, not_implemented]
  · intro hval
    obtain ⟨md, hmd⟩ := Option.isSome_iff_exists.mp
      (by simpa [is_valid_resolve_mode] using hval)
    simp [Channel.SetResolveMode, hmd, Channel.GetResolveMode]

/-- Witness for C7: raw mode 99 is invalid and rejected with the stored mode
untouched; raw mode 2 is valid and accepted with a cleared error. -/
theorem SetResolveMode_validity_witness :
    (is_valid_resolve_mode 99 = false ∧
       Channel.SetResolveMode (Channel.construct 3000) 99 =
         (Channel.construct 3000, not_implemented)) ∧
    (is_valid_resolve_mode 2 = true ∧
       (Channel.SetResolveMode (Channel.construct 3000) 2).2 = 0) :=
  ⟨⟨by decide,
    ((SetResolveMode_validity (Channel.construct 3000) 99).1 (by decide)).1⟩,
   ⟨by decide,
    ((SetResolveMode_validity (Channel.construct 3000) 2).2 (by decide)).1⟩⟩

/-- C8 counterexample: a sub-lookup completed synchronously inside
`ares_gethostbyname` posts its decrement before the increment; after that
first strand operation `request_count_` is -1, refuting non-negativity (the
asynchronous-completion discipline `ValidOps` indeed excludes this
code-generable order). -/
theorem request_count_negative_counterexample :
    ValidOps 0 sync_completion_posts = false ∧
    (runOps (Channel.construct 3000)
      (sync_completion_posts.take 1)).request_count_ = -1 ∧
    ¬ (0 ≤ (runOps (Channel.construct 3000)
        (sync_completion_posts.take 1)).request_count_) := by
  decide

/-- C8 amended: `request_count_` stays non-negative in every state reachable
by a schedule in which each sub-lookup's decrement is posted after its
increment (asynchronous completions; ticks and cancels anywhere); a
synchronous completion posts its decrement first and drives the count
transiently negative. -/
theorem request_count_nonnegative (timeout : Nat) (ops : List StrandOp)
    (hv : ValidOps 0 ops = true) :
    0 ≤ (runOps (Channel.construct timeout) ops).request_count_ := by
  obtain ⟨q, hq⟩ :=
    runOps_count_nat ops 0 (Channel.construct timeout) hv (by simp [Channel.construct])
  rw [hq]
  exact_mod_cast Nat.zero_le q

/-- Witness for the amended C8: a concrete asynchronous-discipline
interleaving of two requests (with a tick and a cancel) keeps the count
non-negative. -/
theorem request_count_nonnegative_witness :
    ValidOps 0 [StrandOp.inc, StrandOp.inc, StrandOp.dec, StrandOp.tick,
      StrandOp.cancel, StrandOp.dec] = true ∧
    0 ≤ (runOps (Channel.construct 1000) [StrandOp.inc, StrandOp.inc,
      StrandOp.dec, StrandOp.tick, StrandOp.cancel,
      StrandOp.dec]).request_count_ :=
  ⟨by decide,
   request_count_nonnegative 1000
     [StrandOp.inc, StrandOp.inc, StrandOp.dec, StrandOp.tick,
      StrandOp.cancel, StrandOp.dec]
     (by decide)⟩

/-- C9: a successful bridge `OpenSocket` returns the fresh identifier and has
registered a Socket Handle under it in the Channel's socket map, and a
subsequent `CloseSocket` on that identifier removes exactly that entry,
leaving every other entry unchanged (the map round-trips to its prior
value). -/
theorem OpenSocket_CloseSocket_roundtrip (c : Channel) (ty : SockType)
    (fd : SocketId) (hfresh : SocketMap.find c.sockets_ fd = none) :
    (OpenSocket c ty (some fd)).2 = fd ∧
    SocketMap.find (OpenSocket c ty (some fd)).1.sockets_ fd =
      some ⟨ty = SockType.sock_stream⟩ ∧
    CloseSocket (OpenSocket c ty (some fd)).1 fd = some c := by
  have hemp : SocketMap.emplace c.sockets_ fd ⟨ty = SockType.sock_stream⟩ =
      c.sockets_ ++ [(fd, ⟨ty = SockType.sock_stream⟩)] := by
    simp [SocketMap.emplace, hfresh]
  have hsk : (OpenSocket c ty (some fd)).1.sockets_ =
      c.sockets_ ++ [(fd, ⟨ty = SockType.sock_stream⟩)] := by
    dsimp [OpenSocket]
    exact hemp
  refine ⟨rfl, ?_, ?_⟩
  · rw [hsk]
    exact find_append_self _ _ _ hfresh
  · dsimp [CloseSocket]
    rw [hsk, find_append_self _ _ _ hfresh]
    rw [eraseKey_append_self _ _ _ hfresh]
    rfl

/-- Witness for C9: opening identifier 7 on a fresh Channel registers a
datagram handle and closing it restores the empty map. -/
theorem OpenSocket_CloseSocket_roundtrip_witness :
    SocketMap.find (Channel.construct 3000).sockets_ 7 = none ∧
    CloseSocket (OpenSocket (Channel.construct 3000) SockType.sock_dgram
      (some 7)).1 7 = some (Channel.construct 3000) :=
  ⟨by decide,
   (OpenSocket_CloseSocket_roundtrip (Channel.construct 3000)
     SockType.sock_dgram 7 (by decide)).2.2⟩

/-- C10: a Channel on which no successful `SetResolveMode` call has been made
reports resolve mode `both`, regardless of the timeout supplied at
construction (any number of rejected `SetResolveMode` calls included). -/
theorem construct_resolve_mode_both (timeout : Nat) (ms : List Nat)
    (hall : ∀ m ∈ ms, is_valid_resolve_mode m = false) :
    Channel.GetResolveMode
      (ms.foldl (fun c m => (Channel.SetResolveMode c m).1)
        (Channel.construct timeout)) = both := by
  have hstate : ∀ (c : Channel) (m : Nat), is_valid_resolve_mode m = false →
      (Channel.SetResolveMode c m).1 = c := by
    intro c m hm
    have hd : decode_resolve_mode m = none := by
      unfold is_valid_resolve_mode at hm
      exact Option.not_isSome_iff_eq_none.mp (by simp [hm])
    simp [Channel.SetResolveMode, hd]
  have key : ∀ (ls : List Nat), (∀ m ∈ ls, is_valid_resolve_mode m = false) →
      ∀ c : Channel,
        ls.foldl (fun c m => (Channel.SetResolveMode c m).1) c = c := by
    intro ls
    induction ls with
    | nil => intro _ c; rfl
    | cons m rest ih =>
      intro hls c
      rw [List.foldl_cons, hstate c m (hls m (by simp))]
      exact ih (fun x hx => hls x (by simp [hx])) c
  rw [key ms hall]
  rfl

/-- Witness for C10: after construction with a 7ms timeout and two rejected
`SetResolveMode` calls, the reported mode is still `both`. -/
theorem construct_resolve_mode_both_witness :
    (∀ m ∈ [99, 6], is_valid_resolve_mode m = false) ∧
    Channel.GetResolveMode
      ([99, 6].foldl (fun c m => (Channel.SetResolveMode c m).1)
        (Channel.construct 7)) = both :=
  ⟨by decide, construct_resolve_mode_both 7 [99, 6] (by decide)⟩

/-- C3 counterexample: under `ipv4_first`, with the accumulated sequence
ending in an IPv6 entry, the arriving IPv4 result has the preferred family,
so the claimed rule would append it; `ResultHandler` prepends it instead
(the source never inspects the arriving family). -/
theorem claimed_prepend_rule_counterexample :
    need_prepend_claimed ipv4_first af_inet [⟨af_inet6, 60⟩] = false ∧
    claimed_merge ipv4_first 0 ⟨af_inet, [40]⟩ [⟨af_inet6, 60⟩] =
      [⟨af_inet6, 60⟩, ⟨af_inet, 40⟩] ∧
    need_prepend_calc ipv4_first [⟨af_inet6, 60⟩] = true ∧
    (ResultHandler ipv4_first 0 ⟨af_inet, [40]⟩ [⟨af_inet6, 60⟩] 2).result =
      [⟨af_inet, 40⟩, ⟨af_inet6, 60⟩] ∧
    (ResultHandler ipv4_first 0 ⟨af_inet, [40]⟩ [⟨af_inet6, 60⟩] 2).result ≠
      claimed_merge ipv4_first 0 ⟨af_inet, [40]⟩ [⟨af_inet6, 60⟩] := by
  decide

/-- C3 amended: under `ipv4_first` and `ipv6_first`, a non-error arriving
sub-result is appended unless the last-appended entry's family equals the
non-preferred family (`AF_INET6` under `ipv4_first`, `AF_INET` under
`ipv6_first`), in which case it is prepended — regardless of the arriving
result's own family; an errored arrival leaves the sequence unchanged. -/
theorem prepend_rule_ignores_arriving_family (mode : resolve_mode)
    (ec : ErrCode) (h : Hostent) (result : Results) (req : Nat)
    (hm : mode = ipv4_first ∨ mode = ipv6_first) :
    (ResultHandler mode ec h result req).result =
      if ec = 0 then
        (if Results.LastFamily result =
            some (if mode = ipv4_first then af_inet6 else af_inet)
         then Results.Prepend result h
         else Results.Append result h)
      else result := by
  have hm3 : mode = ipv4_first ∨ mode = ipv6_first ∨ mode = both := by
    rcases hm with rfl | rfl
    · exact Or.inl rfl
    · exact Or.inr (Or.inl rfl)
  rw [RH_merge_result mode ec h result req hm3,
    need_prepend_calc_eq mode result hm]
  simp only [decide_eq_true_eq]

/-- Witness for the amended C3: with the sequence ending in an IPv6 entry
under `ipv4_first`, the arriving (IPv4) record is prepended. -/
theorem prepend_rule_ignores_arriving_family_witness :
    (ResultHandler ipv4_first 0 ⟨af_inet, [40]⟩ [⟨af_inet6, 60⟩] 2).result =
      Results.Prepend [⟨af_inet6, 60⟩] ⟨af_inet, [40]⟩ := by
  rw [prepend_rule_ignores_arriving_family ipv4_first 0 ⟨af_inet, [40]⟩
    [⟨af_inet6, 60⟩] 2 (Or.inl rfl)]
  decide

/-- C4: under `unspecific`, a completion arriving once the accumulated result
is non-empty is ignored (no merge, no callback, only the count decremented);
while it is empty a non-error completion is accepted by appending and an
errored one changes nothing; and the callback fires exactly when the updated
result is non-empty or the remaining count has reached zero. -/
theorem unspecific_first_nonempty_wins (ec : ErrCode) (h : Hostent)
    (result : Results) (req : Nat) :
    (Results.IsEmpty result = false →
       ResultHandler unspecific ec h result req =
         { result := result, req := dec_u32 req, post := none }) ∧
    (Results.IsEmpty result = true → ec = 0 →
       (ResultHandler unspecific ec h result req).result =
         Results.Append result h) ∧
    (Results.IsEmpty result = true → ec ≠ 0 →
       (ResultHandler unspecific ec h result req).result = result) ∧
    (Results.IsEmpty result = true →
       ((ResultHandler unspecific ec h result req).post ≠ none ↔
         (Results.IsEmpty (ResultHandler unspecific ec h result req).result
            = false ∨ dec_u32 req = 0))) := by
  refine ⟨fun hne => RH_unspec_nonempty ec h result req hne, ?_, ?_, ?_⟩
  · intro he hec
    subst hec
    rw [RH_unspec_empty 0 h result req he]
    simp only [reduceIte]
    split <;> rfl
  · intro he hec
    rw [RH_unspec_empty ec h result req he]
    simp only [if_neg hec]
    split <;> rfl
  · intro he
    rw [RH_unspec_empty ec h result req he]
    exact post_iff_aux (if ec = 0 then Results.Append result h else result)
      req ec

/-- Witness for C4: with an accumulated result already non-empty, a second
completion is ignored and posts nothing. -/
theorem unspecific_first_nonempty_wins_witness :
    Results.IsEmpty [(⟨af_inet6, 60⟩ : Entry)] = false ∧
    ResultHandler unspecific 0 ⟨af_inet, [40]⟩ [⟨af_inet6, 60⟩] 1 =
      { result := [⟨af_inet6, 60⟩], req := 0, post := none } := by
  refine ⟨by decide, ?_⟩
  rw [(unspecific_first_nonempty_wins 0 ⟨af_inet, [40]⟩ [⟨af_inet6, 60⟩] 1).1
    (by decide)]
  decide

/-- C5: under `ipv4_first`, `ipv6_first` and `both`, the callback fires iff
the remaining sub-lookup count has reached zero, and the delivered error code
is cleared whenever the accumulated sequence is non-empty at that moment
(otherwise the arriving error code is forwarded). -/
theorem merge_modes_fire_at_zero_and_mask_errors (mode : resolve_mode)
    (ec : ErrCode) (h : Hostent) (result : Results) (req : Nat)
    (hm : mode = ipv4_first ∨ mode = ipv6_first ∨ mode = both) :
    ((ResultHandler mode ec h result req).post = none ↔ dec_u32 req ≠ 0) ∧
    (dec_u32 req = 0 →
       (ResultHandler mode ec h result req).post =
         some ((if ¬ Results.IsEmpty (ResultHandler mode ec h result req).result
                then 0 else ec),
               (ResultHandler mode ec h result req).result)) := by
  have hp := RH_merge_post mode ec h result req hm
  constructor
  · rw [hp]
    split <;> simp_all
  · intro h0
    rw [hp, if_pos h0]

/-- Witness for C5: the second (final) completion under `ipv4_first` arrives
with an error, yet the callback is posted with a cleared code because the
sequence already holds the IPv6 data. -/
theorem merge_modes_fire_at_zero_and_mask_errors_witness :
    dec_u32 1 = 0 ∧
    (ResultHandler ipv4_first 5 ⟨af_inet, []⟩ [⟨af_inet6, 60⟩] 1).post =
      some (0, [⟨af_inet6, 60⟩]) := by
  refine ⟨by decide, ?_⟩
  rw [(merge_modes_fire_at_zero_and_mask_errors ipv4_first 5 ⟨af_inet, []⟩
    [⟨af_inet6, 60⟩] 1 (Or.inl rfl)).2 (by decide)]
  decide

/-- C1: for every resolve-mode policy, a completed resolve operation (one
completion per issued sub-lookup, fed through the shared result/count state)
posts the caller's callback exactly once, and the remaining sub-lookup count
decreases by exactly one per completion, monotonically from its initial
value down to zero. -/
theorem resolve_callback_exactly_once (mode : resolve_mode)
    (arrivals : List Arrival)
    (hlen : arrivals.length = remain_requests mode) :
    (runQuery mode arrivals).posts.length = 1 ∧
    (runQuery mode arrivals).req = 0 ∧
    (∀ k, k ≤ arrivals.length →
      (runQuery mode (arrivals.take k)).req = remain_requests mode - k) := by
  by_cases honly : mode = ipv4_only ∨ mode = ipv6_only
  · have hr : remain_requests mode = 1 := by rcases honly with rfl | rfl <;> rfl
    rw [hr] at hlen
    obtain ⟨a, rfl⟩ := List.length_eq_one.mp hlen
    obtain ⟨hp, hq⟩ := runQuery_only mode honly a
    refine ⟨hp, hq, ?_⟩
    intro k hk
    have hk1 : k ≤ 1 := by simpa using hk
    clear hk
    interval_cases k
    · simp [runQuery, initQuery, hr]
    · rw [hr]
      simpa using hq
  · push_neg at honly
    obtain ⟨hn4, hn6⟩ := honly
    have hr : remain_requests mode = 2 := by
      simp [remain_requests, hn4, hn6]
    rw [hr] at hlen
    obtain ⟨a, b, rfl⟩ := List.length_eq_two.mp hlen
    by_cases hu : mode = unspecific
    · subst hu
      obtain ⟨hp, hq⟩ := runQuery_unspec a b
      exact ⟨hp, hq, runQuery_take_two unspecific hr a b hq⟩
    · have hm : mode = ipv4_first ∨ mode = ipv6_first ∨ mode = both := by
        cases mode <;> simp_all
      obtain ⟨hp, hq⟩ := runQuery_merge mode hm a b
      exact ⟨hp, hq, runQuery_take_two mode hr a b hq⟩

/-- Witness for C1: a completed `both`-mode query with two successful
completions posts exactly one callback. -/
theorem resolve_callback_exactly_once_witness :
    (([(0, ⟨af_inet, [40]⟩), (0, ⟨af_inet6, [60]⟩)] : List Arrival).length =
      remain_requests both) ∧
    (runQuery both
      [(0, ⟨af_inet, [40]⟩), (0, ⟨af_inet6, [60]⟩)]).posts.length = 1 :=
  ⟨by decide,
   (resolve_callback_exactly_once both
     [(0, ⟨af_inet, [40]⟩), (0, ⟨af_inet6, [60]⟩)] (by decide)).1⟩

/-- C2: under `ipv4_first` (symmetrically `ipv6_first`), when both
sub-lookups complete successfully with addresses, the merged sequence lists
the preferred family first regardless of arrival order; in particular, with
the IPv6 completion arriving before the IPv4 one under `ipv4_first`, the
callback still receives the IPv4 addresses first. -/
theorem first_preference_order_independent_of_arrival (v4 v6 : List Nat)
    (h4 : v4 ≠ []) (h6 : v6 ≠ []) :
    (runQuery ipv4_first [(0, ⟨af_inet6, v6⟩), (0, ⟨af_inet, v4⟩)]).result =
      entriesOf af_inet v4 ++ entriesOf af_inet6 v6 ∧
    (runQuery ipv4_first [(0, ⟨af_inet6, v6⟩), (0, ⟨af_inet, v4⟩)]).posts =
      [(0, entriesOf af_inet v4 ++ entriesOf af_inet6 v6)] ∧
    (runQuery ipv4_first [(0, ⟨af_inet, v4⟩), (0, ⟨af_inet6, v6⟩)]).result =
      entriesOf af_inet v4 ++ entriesOf af_inet6 v6 ∧
    (runQuery ipv6_first [(0, ⟨af_inet, v4⟩), (0, ⟨af_inet6, v6⟩)]).result =
      entriesOf af_inet6 v6 ++ entriesOf af_inet v4 ∧
    (runQuery ipv6_first [(0, ⟨af_inet6, v6⟩), (0, ⟨af_inet, v4⟩)]).result =
      entriesOf af_inet6 v6 ++ entriesOf af_inet v4 := by
  have hnp1 : need_prepend_calc ipv4_first (entriesOf af_inet6 v6) = true := by
    rw [need_prepend_calc_eq _ _ (Or.inl rfl), LastFamily_entriesOf _ _ h6]
    simp
  have hnp2 : need_prepend_calc ipv4_first (entriesOf af_inet v4) = false := by
    rw [need_prepend_calc_eq _ _ (Or.inl rfl), LastFamily_entriesOf _ _ h4]
    simp
  have hnp3 : need_prepend_calc ipv6_first (entriesOf af_inet v4) = true := by
    rw [need_prepend_calc_eq _ _ (Or.inr rfl), LastFamily_entriesOf _ _ h4]
    simp
  have hnp4 : need_prepend_calc ipv6_first (entriesOf af_inet6 v6) = false := by
    rw [need_prepend_calc_eq _ _ (Or.inr rfl), LastFamily_entriesOf _ _ h6]
    simp
  obtain ⟨ha1, hb1⟩ := runQuery_merge_trace ipv4_first (Or.inl rfl)
    (0, ⟨af_inet6, v6⟩) (0, ⟨af_inet, v4⟩) rfl rfl
  obtain ⟨ha2, -⟩ := runQuery_merge_trace ipv4_first (Or.inl rfl)
    (0, ⟨af_inet, v4⟩) (0, ⟨af_inet6, v6⟩) rfl rfl
  obtain ⟨ha3, -⟩ := runQuery_merge_trace ipv6_first (Or.inr (Or.inl rfl))
    (0, ⟨af_inet, v4⟩) (0, ⟨af_inet6, v6⟩) rfl rfl
  obtain ⟨ha4, -⟩ := runQuery_merge_trace ipv6_first (Or.inr (Or.inl rfl))
    (0, ⟨af_inet6, v6⟩) (0, ⟨af_inet, v4⟩) rfl rfl
  dsimp only at ha1 hb1 ha2 ha3 ha4
  rw [hnp1] at ha1 hb1
  rw [hnp2] at ha2
  rw [hnp3] at ha3
  rw [hnp4] at ha4
  simp only [reduceIte] at ha1 hb1 ha2 ha3 ha4
  refine ⟨?_, ?_, ?_, ?_, ?_⟩
  · rw [ha1]; rfl
  · rw [hb1]; rfl
  · rw [ha2]; rfl
  · rw [ha3]; rfl
  · rw [ha4]; rfl

/-- Witness for C2: concrete one-address lookups; IPv6 arrives first under
`ipv4_first`, yet IPv4 leads the merged sequence. -/
theorem first_preference_order_independent_of_arrival_witness :
    (([40] : List Nat) ≠ [] ∧ ([60] : List Nat) ≠ []) ∧
    (runQuery ipv4_first [(0, ⟨af_inet6, [60]⟩), (0, ⟨af_inet, [40]⟩)]).result =
      entriesOf af_inet [40] ++ entriesOf af_inet6 [60] :=
  ⟨⟨by decide, by decide⟩,
   (first_preference_order_independent_of_arrival [40] [60]
     (by decide) (by decide)).1⟩

end detail

end cares
